import Mathlib

/-!
Verification of the spaceform library's four-lane vector / 4x4 matrix /
quaternion core against its natural-language specification.

Modelling conventions:
* IEEE single-precision lanes are modelled as exact rationals (`ℚ`); float
  literals are taken at their decimal values.  All claims settled here are
  either structural (lane permutations, which products are formed) or are
  evaluated at inputs where every f32 operation involved is exact, so the
  rational model is faithful there.
* Transcendental primitives (`sqrt`, `sin`, `cos`, `acos`), which the source
  takes from the Rust float runtime, are abstract parameters bundled in a
  `Trig` structure; definitions using them are quantified over every
  interpretation of those primitives.
* A Rust `panic!`/failed `assert!` is modelled by `Option.none`.
-/

namespace Spaceform

/-- Four-dimensional row vector with named lanes, from
`src/base/vector/scalar.rs` (`struct Vector { x, y, z, w : f32 }`). -/
structure Vector where
  x : ℚ
  y : ℚ
  z : ℚ
  w : ℚ
deriving DecidableEq, Repr

namespace Vector

/-- Source: `Vector::new(x, y, z, w)`. -/
def new (x y z w : ℚ) : Vector := ⟨x, y, z, w⟩

/-- Source: `Vector::default()`, the all-zero vector. -/
def zero : Vector := ⟨0, 0, 0, 0⟩

/-- Source: `impl Add for Vector` (lane-wise). -/
def add (a b : Vector) : Vector := ⟨a.x + b.x, a.y + b.y, a.z + b.z, a.w + b.w⟩

/-- Source: `impl Sub for Vector` (lane-wise). -/
def sub (a b : Vector) : Vector := ⟨a.x - b.x, a.y - b.y, a.z - b.z, a.w - b.w⟩

/-- Source: `impl Mul for Vector` (lane-wise). -/
def mul (a b : Vector) : Vector := ⟨a.x * b.x, a.y * b.y, a.z * b.z, a.w * b.w⟩

/-- Source: `impl Div for Vector` (lane-wise). -/
def div (a b : Vector) : Vector := ⟨a.x / b.x, a.y / b.y, a.z / b.z, a.w / b.w⟩

/-- Source: `impl Mul<f32> for Vector` (broadcast scalar). -/
def mulScalar (a : Vector) (s : ℚ) : Vector := ⟨a.x * s, a.y * s, a.z * s, a.w * s⟩

/-- Source: `impl Div<f32> for Vector` (broadcast scalar). -/
def divScalar (a : Vector) (s : ℚ) : Vector := ⟨a.x / s, a.y / s, a.z / s, a.w / s⟩

/-- Source: `impl Neg for Vector`, defined as `Self::default() - self`. -/
def neg (a : Vector) : Vector := sub zero a

/-- Lane read by position, as laid out in memory (`x` is lane 0 ... `w` is
lane 3); this is the `data[i]` access both backends perform for in-range
indices. -/
def nth (v : Vector) : Fin 4 → ℚ
  | 0 => v.x
  | 1 => v.y
  | 2 => v.z
  | 3 => v.w

/-- Source: `Vector::shuffle::<X, Y, Z, W>()` for statically in-range
indices — output lane i takes input lane `index_i`.  On the x86 and wasm
strategies the indices are constrained at the type level (see
`is_shuffle_arg`), so the operation only exists at in-range indices, which
the `Fin 4` arguments mirror. -/
def shuffle (v : Vector) (X Y Z W : Fin 4) : Vector :=
  ⟨v.nth X, v.nth Y, v.nth Z, v.nth W⟩

/-- Source: `Vector::shuffle::<X, Y, Z, W>()` on the scalar strategy
(`src/base/vector/scalar.rs`), which has no type-level bound on the
indices and reads `data[X as usize]` from a four-element slice at run
time: an index ≥ 4 is a run-time bounds-check panic, modelled as `none`. -/
def shuffleScalar (v : Vector) (X Y Z W : ℕ) : Option Vector :=
  if hx : X < 4 then
    if hy : Y < 4 then
      if hz : Z < 4 then
        if hw : W < 4 then
          some (shuffle v ⟨X, hx⟩ ⟨Y, hy⟩ ⟨Z, hz⟩ ⟨W, hw⟩)
        else none
      else none
    else none
  else none

/-- Source: `is_shuffle_arg` in `src/lib.rs`, the const predicate the SIMD
strategies demand (as `Check<{ is_shuffle_arg(X,Y,Z,W) }>: True` /
`[(); shuffle_args(X,Y,Z,W)]: Sized`) before a shuffle call compiles. -/
def is_shuffle_arg (x y z w : ℕ) : Bool :=
  decide (x < 4) && decide (y < 4) && decide (z < 4) && decide (w < 4)

/-- Source: `Vector::shuffle_merge::<X, Y, Z, W>(vec1, vec2)` — lanes 0, 1
from `vec1` at indices X, Y; lanes 2, 3 from `vec2` at indices Z, W. -/
def shuffle_merge (v1 v2 : Vector) (X Y Z W : Fin 4) : Vector :=
  ⟨v1.nth X, v1.nth Y, v2.nth Z, v2.nth W⟩

/-- Source: `Vector::get(idx)` — both strategies return lane `idx` for
`idx` in `[0, 3]` and panic (`assert!(idx < 4)` on scalar/wasm, the `_`
match arm on x86) otherwise. -/
def get (v : Vector) (idx : ℕ) : Option ℚ :=
  match idx with
  | 0 => some v.x
  | 1 => some v.y
  | 2 => some v.z
  | 3 => some v.w
  | _ => none

/-- Source: `Vector::hsum()` (scalar strategy association). -/
def hsum (v : Vector) : ℚ := v.x + v.y + v.z + v.w

/-- Source: `Vector::dot(lhs, rhs) = (lhs * rhs).hsum()`. -/
def dot (a b : Vector) : ℚ := (mul a b).hsum

/-- Source: `Vector::length_square()`. -/
def length_square (v : Vector) : ℚ := dot v v

/-- Source: `Vector::cross(lhs, rhs)` in `src/base/vector/mod.rs`:
`let temp = lhs.shuffle::<1,2,0,3>();
 temp * rhs.shuffle::<2,0,1,3>() - (temp * rhs).shuffle::<1,2,0,3>()`. -/
def cross (lhs rhs : Vector) : Vector :=
  let temp := lhs.shuffle 1 2 0 3
  sub (mul temp (rhs.shuffle 2 0 1 3)) ((mul temp rhs).shuffle 1 2 0 3)

/-- Source: `Vector::lerp(from, to, t)` in `src/base/vector/mod.rs`
(and identically in `src/vector/mod.rs`): `from + (from - to) * t`. -/
def lerp (src dst : Vector) (t : ℚ) : Vector :=
  add src (mulScalar (sub src dst) t)

/-- Linear interpolation as the specification describes it: the point a
fraction `t` of the way from `src` toward `dst`, `from + (to - from) * t`. -/
def lerpSpec (src dst : Vector) (t : ℚ) : Vector :=
  add src (mulScalar (sub dst src) t)

end Vector

/-- Abstract interpretations of the float transcendental primitives the
source calls (`f32::sqrt`, `f32::cos`, `f32::sin`, `f32::acos`). -/
structure Trig where
  sqrtf : ℚ → ℚ
  cosf : ℚ → ℚ
  sinf : ℚ → ℚ
  acosf : ℚ → ℚ

namespace Vector

/-- Source: `Vector::length() = length_square().sqrt()`. -/
def length (T : Trig) (v : Vector) : ℚ := T.sqrtf v.length_square

/-- Source: `Vector::normalize() = self / self.length()`. -/
def normalize (T : Trig) (v : Vector) : Vector := v.divScalar (length T v)

end Vector

/-- Source: `nearly_equal(lhs, rhs, epsilon)` in `src/base/mod.rs`:
`(rhs - lhs).abs() < epsilon`. -/
def nearly_equal (lhs rhs epsilon : ℚ) : Bool := |rhs - lhs| < epsilon

/-- Quaternion wrapping a `Vector`, from `src/base/quaternion.rs`
(`pub struct Quaternion(pub(crate) Vector)`). -/
structure Quaternion where
  v : Vector
deriving DecidableEq, Repr

namespace Quaternion

/-- Source: `Quaternion::new(x, y, z, w)`. -/
def new (x y z w : ℚ) : Quaternion := ⟨⟨x, y, z, w⟩⟩

/-- Source: `Quaternion::x()` etc. read the wrapped vector's lanes. -/
def x (q : Quaternion) : ℚ := q.v.x

/-- Source: `Quaternion::y()`. -/
def y (q : Quaternion) : ℚ := q.v.y

/-- Source: `Quaternion::z()`. -/
def z (q : Quaternion) : ℚ := q.v.z

/-- Source: `Quaternion::w()`. -/
def w (q : Quaternion) : ℚ := q.v.w

/-- Source: `impl Add for Quaternion`. -/
def add (a b : Quaternion) : Quaternion := ⟨a.v.add b.v⟩

/-- Source: `impl Sub for Quaternion`. -/
def sub (a b : Quaternion) : Quaternion := ⟨a.v.sub b.v⟩

/-- Source: `impl Mul<f32> for Quaternion`. -/
def mulScalar (a : Quaternion) (s : ℚ) : Quaternion := ⟨a.v.mulScalar s⟩

/-- Source: `impl Mul for Quaternion` in `src/base/quaternion.rs`,
transcribed exactly — note the `l_y * l_y` (not `l_y * r_y`) in the w
component, as written in the source. -/
def mul (l r : Quaternion) : Quaternion :=
  ⟨Vector.new
    (l.w * r.x + l.x * r.w + l.y * r.z - l.z * r.y)
    (l.w * r.y + l.y * r.w + l.z * r.x - l.x * r.z)
    (l.w * r.z + l.z * r.w + l.x * r.y - l.y * r.x)
    (l.w * r.w - l.x * r.x - l.y * l.y - l.z * r.z)⟩

/-- Hamilton product as the specification states it (section 4.3):
`w = w1*w2 - x1*x2 - y1*y2 - z1*z2` and the cyclic vector components. -/
def mulSpec (l r : Quaternion) : Quaternion :=
  ⟨Vector.new
    (l.w * r.x + l.x * r.w + l.y * r.z - l.z * r.y)
    (l.w * r.y + l.y * r.w + l.z * r.x - l.x * r.z)
    (l.w * r.z + l.z * r.w + l.x * r.y - l.y * r.x)
    (l.w * r.w - l.x * r.x - l.y * r.y - l.z * r.z)⟩

/-- Source: `Quaternion::dot(lhs, rhs) = Vector::dot(lhs.0, rhs.0)`. -/
def dot (a b : Quaternion) : ℚ := Vector.dot a.v b.v

/-- Source: `Quaternion::normalize() = Self(self.0.normalize())`. -/
def normalize (T : Trig) (q : Quaternion) : Quaternion := ⟨q.v.normalize T⟩

/-- Source: `Quaternion::slerp(from, to, t)`, the body after the two
`debug_assert!`s: `cos = dot(from, to)`; if `cos > 0.9995` renormalized
linear interpolation, otherwise the sine-based formula. -/
def slerp (T : Trig) (src dst : Quaternion) (t : ℚ) : Quaternion :=
  let cos := dot src dst
  if cos > 0.9995 then
    (add (mulScalar src (1 - t)) (mulScalar dst t)).normalize T
  else
    let theta := T.acosf cos
    let dtheta := theta * t
    let qperp := (sub dst (mulScalar src cos)).normalize T
    add (mulScalar src (T.cosf dtheta)) (mulScalar qperp (T.sinf dtheta))

/-- Source: `Quaternion::slerp` including its `debug_assert!` precondition
checks (`nearly_equal(dot(q, q), 1, 0.0001)` for both operands); a failed
assertion is fatal in checked builds, modelled as `none`. -/
def slerpChecked (T : Trig) (src dst : Quaternion) (t : ℚ) : Option Quaternion :=
  if nearly_equal (dot src src) 1 0.0001 && nearly_equal (dot dst dst) 1 0.0001 then
    some (slerp T src dst t)
  else
    none

/-- Slerp algorithm as the specification describes it (section 4.3):
`cos = dot(from, to)`; if `cos > 0.9995` fall back to linear interpolation
plus renormalize, `normalize(from*(1-t) + to*t)`; otherwise
`theta = acos(cos)`, `dtheta = theta * t`,
`qperp = normalize(to - from*cos)`, result
`from*cos(dtheta) + qperp*sin(dtheta)`. -/
def slerpSpec (T : Trig) (src dst : Quaternion) (t : ℚ) : Quaternion :=
  let cos := dot src dst
  if cos > 0.9995 then
    normalize T (add (mulScalar src (1 - t)) (mulScalar dst t))
  else
    let theta := T.acosf cos
    let dtheta := theta * t
    let qperp := normalize T (sub dst (mulScalar src cos))
    add (mulScalar src (T.cosf dtheta)) (mulScalar qperp (T.sinf dtheta))

end Quaternion

/-- A 4x4 matrix stored as four row `Vector`s, from `src/base/matrix.rs`
(`pub struct Matrix { rows: [Vector; 4] }`). -/
structure Matrix where
  r0 : Vector
  r1 : Vector
  r2 : Vector
  r3 : Vector
deriving DecidableEq, Repr

namespace Matrix

/-- Row access by position (`self.rows[i]` for in-range `i`). -/
def row (m : Matrix) : Fin 4 → Vector
  | 0 => m.r0
  | 1 => m.r1
  | 2 => m.r2
  | 3 => m.r3

/-- Source: `Matrix::rows(...)`, construction from 16 row-major values. -/
def rowsOf (a b c d e f g h i j k l m n o p : ℚ) : Matrix :=
  ⟨Vector.new a b c d, Vector.new e f g h, Vector.new i j k l, Vector.new m n o p⟩

/-- Source: `Matrix::row_vectors(rows)`. -/
def row_vectors (a b c d : Vector) : Matrix := ⟨a, b, c, d⟩

/-- Source: `Matrix::identity()`. -/
def identity : Matrix :=
  ⟨Vector.new 1 0 0 0, Vector.new 0 1 0 0, Vector.new 0 0 1 0, Vector.new 0 0 0 1⟩

/-- Source: `impl Mul for Matrix` — result row i is
`rhs.rows[0] * self.rows[i].shuffle::<0,0,0,0>() + ... +
 rhs.rows[3] * self.rows[i].shuffle::<3,3,3,3>()`. -/
def mul (lhs rhs : Matrix) : Matrix :=
  let mkRow := fun (ri : Vector) =>
    Vector.add
      (Vector.add
        (Vector.add (Vector.mul rhs.r0 (ri.shuffle 0 0 0 0)) (Vector.mul rhs.r1 (ri.shuffle 1 1 1 1)))
        (Vector.mul rhs.r2 (ri.shuffle 2 2 2 2)))
      (Vector.mul rhs.r3 (ri.shuffle 3 3 3 3))
  ⟨mkRow lhs.r0, mkRow lhs.r1, mkRow lhs.r2, mkRow lhs.r3⟩

/-- Source: `Matrix::transpose()` — three pairs of `shuffle_merge`
operations (2x2 block interleave, then recombine). -/
def transpose (m : Matrix) : Matrix :=
  let temp0 := Vector.shuffle_merge m.r0 m.r1 0 1 0 1
  let temp1 := Vector.shuffle_merge m.r0 m.r1 2 3 2 3
  let temp2 := Vector.shuffle_merge m.r2 m.r3 0 1 0 1
  let temp3 := Vector.shuffle_merge m.r2 m.r3 2 3 2 3
  ⟨Vector.shuffle_merge temp0 temp2 0 2 0 2,
   Vector.shuffle_merge temp0 temp2 1 3 1 3,
   Vector.shuffle_merge temp1 temp3 0 2 0 2,
   Vector.shuffle_merge temp1 temp3 1 3 1 3⟩

/-- Source: free function `mat2_mul(vec1, vec2)` in `src/base/matrix.rs`,
transcribed exactly — note that the second and third summands are added in
as vectors (`vec1.shuffle::<2,3,0,1>() + vec2.shuffle::<1,1,2,2>()`), with
no multiplication between them, exactly as the source reads. -/
def mat2_mul (v1 v2 : Vector) : Vector :=
  Vector.add
    (Vector.add (Vector.mul v1 (v2.shuffle 0 0 3 3)) (v1.shuffle 2 3 0 1))
    (v2.shuffle 1 1 2 2)

/-- Source: free function `mat2_adj_mul(vec1, vec2)`. -/
def mat2_adj_mul (v1 v2 : Vector) : Vector :=
  Vector.sub
    (Vector.mul (v1.shuffle 3 0 3 0) v2)
    (Vector.mul (v1.shuffle 2 1 2 1) (v2.shuffle 1 0 3 2))

/-- Source: free function `mat2_mul_adj(vec1, vec2)`. -/
def mat2_mul_adj (v1 v2 : Vector) : Vector :=
  Vector.sub
    (Vector.mul v1 (v2.shuffle 3 3 0 0))
    (Vector.mul (v1.shuffle 2 3 0 1) (v2.shuffle 1 1 2 2))

/-- Source: `Matrix::det()`. -/
def det (m : Matrix) : ℚ :=
  let a := Vector.shuffle_merge m.r0 m.r1 0 1 0 1
  let c := Vector.shuffle_merge m.r0 m.r1 2 3 2 3
  let b := Vector.shuffle_merge m.r2 m.r3 0 1 0 1
  let d := Vector.shuffle_merge m.r2 m.r3 2 3 2 3
  let det_sub :=
    Vector.sub
      (Vector.mul (Vector.shuffle_merge m.r0 m.r2 0 2 0 2) (Vector.shuffle_merge m.r1 m.r3 1 3 1 3))
      (Vector.mul (Vector.shuffle_merge m.r0 m.r2 1 3 1 3) (Vector.shuffle_merge m.r1 m.r3 0 2 0 2))
  let det_a := det_sub.shuffle 0 0 0 0
  let det_c := det_sub.shuffle 1 1 1 1
  let det_b := det_sub.shuffle 2 2 2 2
  let det_d := det_sub.shuffle 3 3 3 3
  let d_c := mat2_adj_mul d c
  let a_b := mat2_adj_mul a b
  let tr := (Vector.mul a_b (d_c.shuffle 0 2 1 3)).hsum
  ((Vector.sub (Vector.add (Vector.mul det_a det_d) (Vector.mul det_b det_c))
      (Vector.new tr tr tr tr))).x

/-- Source: `Matrix::inverse()` — the 2x2-block closed form, using
`mat2_mul`, `mat2_adj_mul` and `mat2_mul_adj` exactly as the source does,
with the `[1, -1, -1, 1] / det` sign pattern and the final
`shuffle_merge` reassembly of the four quadrants. -/
def inverse (m : Matrix) : Matrix :=
  let a := Vector.shuffle_merge m.r0 m.r1 0 1 0 1
  let c := Vector.shuffle_merge m.r0 m.r1 2 3 2 3
  let b := Vector.shuffle_merge m.r2 m.r3 0 1 0 1
  let d := Vector.shuffle_merge m.r2 m.r3 2 3 2 3
  let det_sub :=
    Vector.sub
      (Vector.mul (Vector.shuffle_merge m.r0 m.r2 0 2 0 2) (Vector.shuffle_merge m.r1 m.r3 1 3 1 3))
      (Vector.mul (Vector.shuffle_merge m.r0 m.r2 1 3 1 3) (Vector.shuffle_merge m.r1 m.r3 0 2 0 2))
  let det_a := det_sub.shuffle 0 0 0 0
  let det_c := det_sub.shuffle 1 1 1 1
  let det_b := det_sub.shuffle 2 2 2 2
  let det_d := det_sub.shuffle 3 3 3 3
  let d_c := mat2_adj_mul d c
  let a_b := mat2_adj_mul a b
  let x_ := Vector.sub (Vector.mul det_d a) (mat2_mul b d_c)
  let w_ := Vector.sub (Vector.mul det_a d) (mat2_mul c a_b)
  let y_ := Vector.sub (Vector.mul det_b c) (mat2_mul_adj d a_b)
  let z_ := Vector.sub (Vector.mul det_c b) (mat2_mul_adj a d_c)
  let tr := (Vector.mul a_b (d_c.shuffle 0 2 1 3)).hsum
  let det_m := Vector.sub (Vector.add (Vector.mul det_a det_d) (Vector.mul det_b det_c))
    (Vector.new tr tr tr tr)
  let r_det_m := Vector.div (Vector.new 1 (-1) (-1) 1) det_m
  let x := Vector.mul x_ r_det_m
  let y := Vector.mul y_ r_det_m
  let z := Vector.mul z_ r_det_m
  let w := Vector.mul w_ r_det_m
  ⟨Vector.shuffle_merge x z 3 1 3 1,
   Vector.shuffle_merge x z 2 0 2 0,
   Vector.shuffle_merge y w 3 1 3 1,
   Vector.shuffle_merge y w 2 0 2 0⟩

/-- Textbook 4x4 determinant (Laplace expansion along the first row),
used as the mathematical reference for what "determinant" means in the
specification. -/
def detSpec (m : Matrix) : ℚ :=
  let d3 := fun (a b c d e f g h i : ℚ) =>
    a * (e * i - f * h) - b * (d * i - f * g) + c * (d * h - e * g)
  m.r0.x * d3 m.r1.y m.r1.z m.r1.w m.r2.y m.r2.z m.r2.w m.r3.y m.r3.z m.r3.w
    - m.r0.y * d3 m.r1.x m.r1.z m.r1.w m.r2.x m.r2.z m.r2.w m.r3.x m.r3.z m.r3.w
    + m.r0.z * d3 m.r1.x m.r1.y m.r1.w m.r2.x m.r2.y m.r2.w m.r3.x m.r3.y m.r3.w
    - m.r0.w * d3 m.r1.x m.r1.y m.r1.z m.r2.x m.r2.y m.r2.z m.r3.x m.r3.y m.r3.z

end Matrix

/-- Wrapper from `src/direction.rs`: a `Vector` with lane w fixed to 0
(`Direction::new(x, y, z) = Self(Vector::new(x, y, z, 0.0))`). -/
structure Direction where
  v : Vector
deriving DecidableEq, Repr

/-- Source: `Direction::new(x, y, z)`. -/
def Direction.new (x y z : ℚ) : Direction := ⟨Vector.new x y z 0⟩

/-- Affine transform from `src/transform.rs`: a matrix paired with its
precomputed inverse. -/
structure Transform where
  matrix : Matrix
  inverse : Matrix
deriving DecidableEq, Repr

namespace Transform

/-- Source: `Transform::identity()`. -/
def identity : Transform := ⟨Matrix.identity, Matrix.identity⟩

/-- Source: `impl Mul for Transform` — composed matrix `self.matrix *
rhs.matrix`, composed inverse `rhs.inverse * self.inverse`. -/
def mul (a b : Transform) : Transform :=
  ⟨Matrix.mul a.matrix b.matrix, Matrix.mul b.inverse a.inverse⟩

/-- Source: `Transform::translate(dir)` — last matrix row
`dir.0 + Vector::new(0,0,0,1)`, last inverse row
`-dir.0 + Vector::new(0,0,0,1)`. -/
def translate (dir : Direction) : Transform :=
  ⟨Matrix.row_vectors (Vector.new 1 0 0 0) (Vector.new 0 1 0 0) (Vector.new 0 0 1 0)
      (Vector.add dir.v (Vector.new 0 0 0 1)),
   Matrix.row_vectors (Vector.new 1 0 0 0) (Vector.new 0 1 0 0) (Vector.new 0 0 1 0)
      (Vector.add (Vector.neg dir.v) (Vector.new 0 0 0 1))⟩

/-- Source: `Transform::scale(scale)` — diagonal matrix of the axes, with
the inverse half built from `inv = Vector::new(1,1,1,1) / scale.0`
(reciprocal per axis). -/
def scale (s : Direction) : Transform :=
  let inv := Vector.div (Vector.new 1 1 1 1) s.v
  ⟨Matrix.rowsOf s.v.x 0 0 0 0 s.v.y 0 0 0 0 s.v.z 0 0 0 0 1,
   Matrix.rowsOf inv.x 0 0 0 0 inv.y 0 0 0 0 inv.z 0 0 0 0 1⟩

/-- Source: `Transform::rotate(rotation)` — the quaternion-derived
rotation matrix, with the inverse half `matrix.transpose()`.  `Rotation`
(`src/rotation.rs`) is a plain wrapper around `Quaternion`, so the
argument is taken as the wrapped quaternion. -/
def rotate (q : Quaternion) : Transform :=
  let x := q.x
  let y := q.y
  let z := q.z
  let w := q.w
  let matrix := Matrix.rowsOf
    (1 - 2 * (y * y + z * z)) (2 * (x * y + z * w)) (2 * (x * z - y * w)) 0
    (2 * (x * y - z * w)) (1 - 2 * (x * x + z * z)) (2 * (y * z + x * w)) 0
    (2 * (x * z + y * w)) (2 * (y * z - x * w)) (1 - 2 * (x * x + y * y)) 0
    0 0 0 1
  ⟨matrix, matrix.transpose⟩

/-- Source: `Transform::inverse()` — swaps the two stored halves (named
`invert` here because the Lean field accessor `Transform.inverse` already
carries the source's field name). -/
def invert (t : Transform) : Transform := ⟨t.inverse, t.matrix⟩

/-- Transforms reachable through the public constructors the
specification enumerates: `identity`, `translate`, `scale` with
all-nonzero axes, `rotate` from a unit quaternion, `mul`, and
`inverse`. -/
inductive Reachable : Transform → Prop where
  | identity : Reachable Transform.identity
  | translate (x y z : ℚ) : Reachable (Transform.translate (Direction.new x y z))
  | scale (x y z : ℚ) (hx : x ≠ 0) (hy : y ≠ 0) (hz : z ≠ 0) :
      Reachable (Transform.scale (Direction.new x y z))
  | rotate (q : Quaternion) (h : Quaternion.dot q q = 1) : Reachable (Transform.rotate q)
  | mul {a b : Transform} : Reachable a → Reachable b → Reachable (Transform.mul a b)
  | invert {a : Transform} : Reachable a → Reachable (Transform.invert a)

end Transform

/-- Source-intent variant of `mat2_mul` for comparison: the same
expression with the multiplication the surrounding `mat2_adj_mul` /
`mat2_mul_adj` helpers have between their second factors restored
(`vec1 * vec2.shuffle::<0,0,3,3>() + vec1.shuffle::<2,3,0,1>() *
vec2.shuffle::<1,1,2,2>()`); used to evidence that the published inverse
algorithm is correct once that single token is restored. -/
def Matrix.mat2_mul_fixed (v1 v2 : Vector) : Vector :=
  Vector.add
    (Vector.mul v1 (v2.shuffle 0 0 3 3))
    (Vector.mul (v1.shuffle 2 3 0 1) (v2.shuffle 1 1 2 2))

/-- The source's `Matrix::inverse()` with `mat2_mul` replaced by
`mat2_mul_fixed`; everything else is transcribed unchanged. -/
def Matrix.inverseFixed (m : Matrix) : Matrix :=
  let a := Vector.shuffle_merge m.r0 m.r1 0 1 0 1
  let c := Vector.shuffle_merge m.r0 m.r1 2 3 2 3
  let b := Vector.shuffle_merge m.r2 m.r3 0 1 0 1
  let d := Vector.shuffle_merge m.r2 m.r3 2 3 2 3
  let det_sub :=
    Vector.sub
      (Vector.mul (Vector.shuffle_merge m.r0 m.r2 0 2 0 2) (Vector.shuffle_merge m.r1 m.r3 1 3 1 3))
      (Vector.mul (Vector.shuffle_merge m.r0 m.r2 1 3 1 3) (Vector.shuffle_merge m.r1 m.r3 0 2 0 2))
  let det_a := det_sub.shuffle 0 0 0 0
  let det_c := det_sub.shuffle 1 1 1 1
  let det_b := det_sub.shuffle 2 2 2 2
  let det_d := det_sub.shuffle 3 3 3 3
  let d_c := mat2_adj_mul d c
  let a_b := mat2_adj_mul a b
  let x_ := Vector.sub (Vector.mul det_d a) (mat2_mul_fixed b d_c)
  let w_ := Vector.sub (Vector.mul det_a d) (mat2_mul_fixed c a_b)
  let y_ := Vector.sub (Vector.mul det_b c) (mat2_mul_adj d a_b)
  let z_ := Vector.sub (Vector.mul det_c b) (mat2_mul_adj a d_c)
  let tr := (Vector.mul a_b (d_c.shuffle 0 2 1 3)).hsum
  let det_m := Vector.sub (Vector.add (Vector.mul det_a det_d) (Vector.mul det_b det_c))
    (Vector.new tr tr tr tr)
  let r_det_m := Vector.div (Vector.new 1 (-1) (-1) 1) det_m
  let x := Vector.mul x_ r_det_m
  let y := Vector.mul y_ r_det_m
  let z := Vector.mul z_ r_det_m
  let w := Vector.mul w_ r_det_m
  ⟨Vector.shuffle_merge x z 3 1 3 1,
   Vector.shuffle_merge x z 2 0 2 0,
   Vector.shuffle_merge y w 3 1 3 1,
   Vector.shuffle_merge y w 2 0 2 0⟩

/-- The shuffle-based `Matrix::det()` computes the textbook 4x4
determinant. -/
theorem Matrix.det_eq_detSpec (m : Matrix) : m.det = m.detSpec := by
  obtain ⟨⟨a, b, c, d⟩, ⟨e, f, g, h⟩, ⟨i, j, k, l⟩, ⟨n, o, p, q⟩⟩ := m
  simp only [Matrix.det, Matrix.detSpec, Matrix.mat2_adj_mul, Vector.shuffle_merge,
    Vector.shuffle, Vector.nth, Vector.mul, Vector.sub, Vector.add, Vector.hsum, Vector.new]
  ring

/-- Multiplying by `identity` on the right is the identity map. -/
theorem Matrix.mul_identity (m : Matrix) : Matrix.mul m Matrix.identity = m := by
  obtain ⟨⟨a, b, c, d⟩, ⟨e, f, g, h⟩, ⟨i, j, k, l⟩, ⟨n, o, p, q⟩⟩ := m
  simp only [Matrix.mul, Matrix.identity, Vector.shuffle, Vector.nth, Vector.mul, Vector.add,
    Vector.new, Matrix.mk.injEq, Vector.mk.injEq]
  refine ⟨⟨?_, ?_, ?_, ?_⟩, ⟨?_, ?_, ?_, ?_⟩, ⟨?_, ?_, ?_, ?_⟩, ⟨?_, ?_, ?_, ?_⟩⟩ <;> ring

/-- Multiplying by `identity` on the left is the identity map. -/
theorem Matrix.identity_mul (m : Matrix) : Matrix.mul Matrix.identity m = m := by
  obtain ⟨⟨a, b, c, d⟩, ⟨e, f, g, h⟩, ⟨i, j, k, l⟩, ⟨n, o, p, q⟩⟩ := m
  simp only [Matrix.mul, Matrix.identity, Vector.shuffle, Vector.nth, Vector.mul, Vector.add,
    Vector.new, Matrix.mk.injEq, Vector.mk.injEq]
  refine ⟨⟨?_, ?_, ?_, ?_⟩, ⟨?_, ?_, ?_, ?_⟩, ⟨?_, ?_, ?_, ?_⟩, ⟨?_, ?_, ?_, ?_⟩⟩ <;> ring

/-- The source's broadcast-and-accumulate matrix product is
associative. -/
theorem Matrix.mul_assoc (a b c : Matrix) :
    Matrix.mul (Matrix.mul a b) c = Matrix.mul a (Matrix.mul b c) := by
  obtain ⟨⟨a0, a1, a2, a3⟩, ⟨a4, a5, a6, a7⟩, ⟨a8, a9, aa, ab⟩, ⟨ac, ad, ae, af⟩⟩ := a
  obtain ⟨⟨b0, b1, b2, b3⟩, ⟨b4, b5, b6, b7⟩, ⟨b8, b9, ba, bb⟩, ⟨bc, bd, be, bf⟩⟩ := b
  obtain ⟨⟨c0, c1, c2, c3⟩, ⟨c4, c5, c6, c7⟩, ⟨c8, c9, ca, cb⟩, ⟨cc, cd, ce, cf⟩⟩ := c
  simp only [Matrix.mul, Vector.shuffle, Vector.nth, Vector.mul, Vector.add,
    Matrix.mk.injEq, Vector.mk.injEq]
  refine ⟨⟨?_, ?_, ?_, ?_⟩, ⟨?_, ?_, ?_, ?_⟩, ⟨?_, ?_, ?_, ?_⟩, ⟨?_, ?_, ?_, ?_⟩⟩ <;> ring

/-- Restoring the missing multiplication makes the block-decomposition
inverse exactly correct for every matrix of nonzero determinant. -/
theorem Matrix.mul_inverseFixed (m : Matrix) (h : m.det ≠ 0) :
    Matrix.mul m (Matrix.inverseFixed m) = Matrix.identity := by
  obtain ⟨⟨a, b, c, d⟩, ⟨e, f, g, h2⟩, ⟨i, j, k, l⟩, ⟨n, o, p, q⟩⟩ := m
  simp only [Matrix.det, Matrix.mat2_adj_mul, Vector.shuffle_merge, Vector.shuffle,
    Vector.nth, Vector.mul, Vector.sub, Vector.add, Vector.hsum, Vector.new] at h
  simp only [Matrix.mul, Matrix.inverseFixed, Matrix.identity, Matrix.mat2_mul_fixed,
    Matrix.mat2_adj_mul, Matrix.mat2_mul_adj, Vector.shuffle_merge, Vector.shuffle,
    Vector.nth, Vector.mul, Vector.sub, Vector.add, Vector.div, Vector.hsum, Vector.new,
    Matrix.mk.injEq, Vector.mk.injEq]
  refine ⟨⟨?_, ?_, ?_, ?_⟩, ⟨?_, ?_, ?_, ?_⟩, ⟨?_, ?_, ?_, ?_⟩, ⟨?_, ?_, ?_, ?_⟩⟩ <;>
    · field_simp
      ring

/-- Every reachable `Transform` carries a mutually inverse pair: its
matrix times its stored inverse and its stored inverse times its matrix
are both `identity`. -/
theorem Transform.reachable_inverse_pair {t : Transform} (h : Transform.Reachable t) :
    Matrix.mul t.matrix t.inverse = Matrix.identity ∧
    Matrix.mul t.inverse t.matrix = Matrix.identity := by
  induction h with
  | identity =>
    exact ⟨Matrix.identity_mul Matrix.identity, Matrix.identity_mul Matrix.identity⟩
  | translate x y z =>
    constructor <;>
    · simp only [Transform.translate, Direction.new, Matrix.row_vectors, Matrix.mul,
        Matrix.identity, Vector.shuffle, Vector.nth, Vector.mul, Vector.add, Vector.sub,
        Vector.neg, Vector.zero, Vector.new, Matrix.mk.injEq, Vector.mk.injEq]
      refine ⟨⟨?_, ?_, ?_, ?_⟩, ⟨?_, ?_, ?_, ?_⟩, ⟨?_, ?_, ?_, ?_⟩, ⟨?_, ?_, ?_, ?_⟩⟩ <;> ring
  | scale x y z hx hy hz =>
    constructor <;>
    · simp only [Transform.scale, Direction.new, Matrix.rowsOf, Matrix.mul,
        Matrix.identity, Vector.shuffle, Vector.nth, Vector.mul, Vector.add, Vector.div,
        Vector.new, Matrix.mk.injEq, Vector.mk.injEq]
      refine ⟨⟨?_, ?_, ?_, ?_⟩, ⟨?_, ?_, ?_, ?_⟩, ⟨?_, ?_, ?_, ?_⟩, ⟨?_, ?_, ?_, ?_⟩⟩ <;>
        field_simp
  | rotate q hq =>
    obtain ⟨⟨x, y, z, w⟩⟩ := q
    simp only [Quaternion.dot, Vector.dot, Vector.mul, Vector.hsum] at hq
    constructor
    · simp only [Transform.rotate, Quaternion.x, Quaternion.y, Quaternion.z, Quaternion.w,
        Matrix.rowsOf, Matrix.mul, Matrix.transpose, Matrix.identity, Vector.shuffle,
        Vector.shuffle_merge, Vector.nth, Vector.mul, Vector.add, Vector.new,
        Matrix.mk.injEq, Vector.mk.injEq]
      refine ⟨⟨?_, ?_, ?_, ?_⟩, ⟨?_, ?_, ?_, ?_⟩, ⟨?_, ?_, ?_, ?_⟩, ⟨?_, ?_, ?_, ?_⟩⟩
      · linear_combination (4 * (y * y + z * z)) * hq
      · linear_combination (-(4 * x * y)) * hq
      · linear_combination (-(4 * x * z)) * hq
      · ring
      · linear_combination (-(4 * x * y)) * hq
      · linear_combination (4 * (x * x + z * z)) * hq
      · linear_combination (-(4 * y * z)) * hq
      · ring
      · linear_combination (-(4 * x * z)) * hq
      · linear_combination (-(4 * y * z)) * hq
      · linear_combination (4 * (x * x + y * y)) * hq
      · ring
      · ring
      · ring
      · ring
      · ring
    · simp only [Transform.rotate, Quaternion.x, Quaternion.y, Quaternion.z, Quaternion.w,
        Matrix.rowsOf, Matrix.mul, Matrix.transpose, Matrix.identity, Vector.shuffle,
        Vector.shuffle_merge, Vector.nth, Vector.mul, Vector.add, Vector.new,
        Matrix.mk.injEq, Vector.mk.injEq]
      refine ⟨⟨?_, ?_, ?_, ?_⟩, ⟨?_, ?_, ?_, ?_⟩, ⟨?_, ?_, ?_, ?_⟩, ⟨?_, ?_, ?_, ?_⟩⟩
      · linear_combination (4 * (y * y + z * z)) * hq
      · linear_combination (-(4 * x * y)) * hq
      · linear_combination (-(4 * x * z)) * hq
      · ring
      · linear_combination (-(4 * x * y)) * hq
      · linear_combination (4 * (x * x + z * z)) * hq
      · linear_combination (-(4 * y * z)) * hq
      · ring
      · linear_combination (-(4 * x * z)) * hq
      · linear_combination (-(4 * y * z)) * hq
      · linear_combination (4 * (x * x + y * y)) * hq
      · ring
      · ring
      · ring
      · ring
      · ring
  | @mul a b ha hb iha ihb =>
    constructor
    · show Matrix.mul (Matrix.mul a.matrix b.matrix) (Matrix.mul b.inverse a.inverse) =
        Matrix.identity
      rw [Matrix.mul_assoc a.matrix b.matrix (Matrix.mul b.inverse a.inverse),
        ← Matrix.mul_assoc b.matrix b.inverse a.inverse, ihb.1, Matrix.identity_mul]
      exact iha.1
    · show Matrix.mul (Matrix.mul b.inverse a.inverse) (Matrix.mul a.matrix b.matrix) =
        Matrix.identity
      rw [Matrix.mul_assoc b.inverse a.inverse (Matrix.mul a.matrix b.matrix),
        ← Matrix.mul_assoc a.inverse a.matrix b.matrix, iha.2, Matrix.identity_mul]
      exact ihb.2
  | invert ha iha =>
    exact ⟨iha.2, iha.1⟩

/-- C1: the claim states that quaternion `*` is the Hamilton product, with
`result.w = w1*w2 - x1*x2 - y1*y2 - z1*z2`.  The source instead multiplies
`l_y * l_y` in the w component: at q1 = (0,1,0,0), q2 = (0,2,0,0) the code
produces w = -1 where the Hamilton product gives w = -2 (every f32
operation at this input is exact, so the rational evaluation is the IEEE
one). -/
theorem quaternion_mul_w_component_bug :
    Quaternion.mul (Quaternion.new 0 1 0 0) (Quaternion.new 0 2 0 0) =
      Quaternion.new 0 0 0 (-1) ∧
    Quaternion.mulSpec (Quaternion.new 0 1 0 0) (Quaternion.new 0 2 0 0) =
      Quaternion.new 0 0 0 (-2) := by
  constructor <;>
  · simp only [Quaternion.mul, Quaternion.mulSpec, Quaternion.new, Quaternion.x, Quaternion.y,
      Quaternion.z, Quaternion.w, Vector.new, Quaternion.mk.injEq, Vector.mk.injEq]
    norm_num

/-- C6: the concrete product `Quaternion::new(1,2,3,4) * Quaternion::new(1,2,3,4)`
equals `Quaternion::new(8,16,24,2)` exactly, as the code computes it (all
values involved are exactly representable in f32). -/
theorem quaternion_mul_concrete :
    Quaternion.mul (Quaternion.new 1 2 3 4) (Quaternion.new 1 2 3 4) =
      Quaternion.new 8 16 24 2 := by
  simp only [Quaternion.mul, Quaternion.new, Quaternion.x, Quaternion.y,
    Quaternion.z, Quaternion.w, Vector.new, Quaternion.mk.injEq, Vector.mk.injEq]
  norm_num

/-- C2: the claim states `M * M.inverse()` is within epsilon of
`identity()` for every M of nonzero determinant.  At
M = [[3,1,4,1],[5,9,2,6],[5,3,5,8],[9,7,9,3]] — determinant 98 by both the
source's `det()` and the textbook expansion — the product of M with the
source's `inverse()` is far from the identity (entry (0,0) is -1/49),
because `mat2_mul` is missing a multiplication; with that single token
restored (`inverseFixed`) the same product is exactly the identity. -/
theorem matrix_inverse_product_bug :
    Matrix.det (Matrix.rowsOf 3 1 4 1 5 9 2 6 5 3 5 8 9 7 9 3) = 98 ∧
    Matrix.detSpec (Matrix.rowsOf 3 1 4 1 5 9 2 6 5 3 5 8 9 7 9 3) = 98 ∧
    Matrix.mul (Matrix.rowsOf 3 1 4 1 5 9 2 6 5 3 5 8 9 7 9 3)
      (Matrix.inverse (Matrix.rowsOf 3 1 4 1 5 9 2 6 5 3 5 8 9 7 9 3)) ≠ Matrix.identity ∧
    Matrix.mul (Matrix.rowsOf 3 1 4 1 5 9 2 6 5 3 5 8 9 7 9 3)
      (Matrix.inverseFixed (Matrix.rowsOf 3 1 4 1 5 9 2 6 5 3 5 8 9 7 9 3)) =
      Matrix.identity := by
  refine ⟨?_, ?_, ?_, ?_⟩
  · simp only [Matrix.det, Matrix.rowsOf, Matrix.mat2_adj_mul, Vector.shuffle_merge,
      Vector.shuffle, Vector.nth, Vector.mul, Vector.sub, Vector.add, Vector.hsum, Vector.new]
    norm_num
  · simp only [Matrix.detSpec, Matrix.rowsOf, Vector.new]
    norm_num
  · simp only [Matrix.mul, Matrix.inverse, Matrix.rowsOf, Matrix.identity, Matrix.mat2_mul,
      Matrix.mat2_adj_mul, Matrix.mat2_mul_adj, Vector.shuffle_merge, Vector.shuffle,
      Vector.nth, Vector.mul, Vector.sub, Vector.add, Vector.div, Vector.hsum, Vector.new,
      Matrix.mk.injEq, Vector.mk.injEq]
    norm_num
  · simp only [Matrix.mul, Matrix.inverseFixed, Matrix.rowsOf, Matrix.identity,
      Matrix.mat2_mul_fixed, Matrix.mat2_adj_mul, Matrix.mat2_mul_adj, Vector.shuffle_merge,
      Vector.shuffle, Vector.nth, Vector.mul, Vector.sub, Vector.add, Vector.div, Vector.hsum,
      Vector.new, Matrix.mk.injEq, Vector.mk.injEq]
    norm_num

/-- C3: the claim states `lerp(from, to, t) = from + (to - from) * t`, so
`lerp(from, to, 1)` lands on `to`.  The source computes
`from + (from - to) * t`: at from = 0, to = (1,1,1,1), t = 1 it lands on
(-1,-1,-1,-1), the opposite side of `from`, while the specification's
formula gives (1,1,1,1) (all operations here are exact in f32). -/
theorem lerp_direction_bug :
    Vector.lerp (Vector.new 0 0 0 0) (Vector.new 1 1 1 1) 1 =
      Vector.new (-1) (-1) (-1) (-1) ∧
    Vector.lerpSpec (Vector.new 0 0 0 0) (Vector.new 1 1 1 1) 1 = Vector.new 1 1 1 1 := by
  constructor <;>
  · simp only [Vector.lerp, Vector.lerpSpec, Vector.add, Vector.sub, Vector.mulScalar,
      Vector.new, Vector.mk.injEq]
    norm_num

/-- C8: `transpose()` swaps rows and columns — entry (i, j) of the
transpose is entry (j, i) of the argument — and is an involution,
`M.transpose().transpose() == M`, exactly (it only permutes lanes). -/
theorem transpose_swaps_and_involutive :
    (∀ (m : Matrix) (i j : Fin 4), ((m.transpose.row i).nth j) = ((m.row j).nth i)) ∧
    (∀ m : Matrix, m.transpose.transpose = m) := by
  constructor
  · intro m i j
    fin_cases i <;> fin_cases j <;> rfl
  · intro m
    rfl

/-- C9: `get(idx)` returns the lane the same-named accessor returns for
idx in [0,3] (x for 0, y for 1, z for 2, w for 3), and panics — modelled
as `none` — for every idx > 3; the named accessors are plain projections
and never fail. -/
theorem get_indexing :
    ∀ v : Vector, Vector.get v 0 = some v.x ∧ Vector.get v 1 = some v.y ∧
      Vector.get v 2 = some v.z ∧ Vector.get v 3 = some v.w ∧
      ∀ idx : ℕ, 3 < idx → Vector.get v idx = none := by
  intro v
  refine ⟨rfl, rfl, rfl, rfl, ?_⟩
  intro idx h
  obtain ⟨n, rfl⟩ : ∃ n, idx = n + 4 := ⟨idx - 4, by omega⟩
  rfl

/-- Witness for C9 at concrete inputs: lane 0 of (1,2,3,4) is 1, and index
5 is rejected. -/
theorem get_indexing_witness :
    Vector.get (Vector.new 1 2 3 4) 0 = some 1 ∧
    Vector.get (Vector.new 1 2 3 4) 5 = none :=
  ⟨(get_indexing (Vector.new 1 2 3 4)).1,
   (get_indexing (Vector.new 1 2 3 4)).2.2.2.2 5 (by norm_num)⟩

/-- C10: the w lane of `cross(a, b)` is computed as `a.w*b.w - a.w*b.w`
(lane 3 of `temp * rhs.shuffle::<2,0,1,3>()` minus lane 3 of
`(temp * rhs).shuffle::<1,2,0,3>()`), hence is exactly zero — in IEEE
terms, whenever `a.w * b.w` is finite. -/
theorem cross_w_lane_zero :
    ∀ a b : Vector, (Vector.cross a b).w = a.w * b.w - a.w * b.w ∧
      (Vector.cross a b).w = 0 := by
  intro a b
  refine ⟨rfl, ?_⟩
  simp only [Vector.cross, Vector.shuffle, Vector.nth, Vector.mul, Vector.sub]
  ring

/-- Counterexample to C4 as stated: on the scalar execution strategy,
`shuffle` has no compile-time bound on its const indices — the call with
X = 4 compiles and the out-of-range access is only caught by the run-time
slice bounds check (a panic, modelled as `none`), so rejection is not "at
compile time, not at run time, on every execution strategy". -/
theorem shuffle_scalar_runtime_reject :
    Vector.shuffleScalar (Vector.new 1 2 3 4) 4 0 0 0 = none := by
  rfl

/-- C4 (amended): on every strategy, for indices in {0,1,2,3} the shuffle
returns the vector whose lane i holds input lane index_i, and the SIMD
strategies' compile-time guard `is_shuffle_arg` accepts exactly those
indices; an index ≥ 4 is rejected — at compile time by the SIMD guard
(`is_shuffle_arg = false`), but on the scalar strategy only by the
run-time bounds check (`none`). -/
theorem shuffle_lane_semantics_and_guards :
    (∀ (v : Vector) (X Y Z W : ℕ) (hx : X < 4) (hy : Y < 4) (hz : Z < 4) (hw : W < 4),
        Vector.shuffleScalar v X Y Z W =
          some (Vector.new (v.nth ⟨X, hx⟩) (v.nth ⟨Y, hy⟩) (v.nth ⟨Z, hz⟩) (v.nth ⟨W, hw⟩)) ∧
        Vector.is_shuffle_arg X Y Z W = true) ∧
    (∀ (v : Vector) (X Y Z W : ℕ), 4 ≤ X ∨ 4 ≤ Y ∨ 4 ≤ Z ∨ 4 ≤ W →
        Vector.shuffleScalar v X Y Z W = none ∧
        Vector.is_shuffle_arg X Y Z W = false) := by
  constructor
  · intro v X Y Z W hx hy hz hw
    constructor
    · simp only [Vector.shuffleScalar, hx, hy, hz, hw, dif_pos, Vector.shuffle, Vector.new]
    · simp only [Vector.is_shuffle_arg, hx, hy, hz, hw, decide_true_eq_true, Bool.and_self]
  · intro v X Y Z W h
    constructor
    · simp only [Vector.shuffleScalar]
      split_ifs with h1 h2 h3 h4 <;> first | rfl | omega
    · rw [Bool.eq_false_iff]
      intro hc
      simp only [Vector.is_shuffle_arg, Bool.and_eq_true, decide_eq_true_eq] at hc
      omega

/-- Witness for C4 at concrete inputs: a valid shuffle permutes the lanes
as stated and passes the guard; index 7 is refused by the SIMD guard and
panics at run time on the scalar strategy. -/
theorem shuffle_lane_semantics_witness :
    (Vector.shuffleScalar (Vector.new 1 2 3 4) 2 1 0 3 = some (Vector.new 3 2 1 4) ∧
      Vector.is_shuffle_arg 2 1 0 3 = true) ∧
    (Vector.shuffleScalar (Vector.new 1 2 3 4) 0 0 0 7 = none ∧
      Vector.is_shuffle_arg 0 0 0 7 = false) :=
  ⟨shuffle_lane_semantics_and_guards.1 (Vector.new 1 2 3 4) 2 1 0 3
      (by norm_num) (by norm_num) (by norm_num) (by norm_num),
   shuffle_lane_semantics_and_guards.2 (Vector.new 1 2 3 4) 0 0 0 7
      (Or.inr (Or.inr (Or.inr (by norm_num))))⟩

/-- C5: `slerp` computes `cos = dot(from, to)`; when `cos > 0.9995` it
returns the renormalized linear interpolation
`normalize(from*(1-t) + to*t)`, otherwise
`from*cos(dtheta) + qperp*sin(dtheta)` with `theta = acos(cos)`,
`dtheta = theta*t`, `qperp = normalize(to - from*cos)` — exactly the
specification's algorithm, for every interpretation of the transcendental
primitives; and the checked entry point is fatal (`none`) exactly when an
operand fails the 1e-4 unit-length assertion. -/
theorem slerp_matches_spec :
    ∀ (T : Trig) (qa qb : Quaternion) (t : ℚ),
      Quaternion.slerp T qa qb t = Quaternion.slerpSpec T qa qb t ∧
      (nearly_equal (Quaternion.dot qa qa) 1 0.0001 = true ∧
          nearly_equal (Quaternion.dot qb qb) 1 0.0001 = true →
        Quaternion.slerpChecked T qa qb t = some (Quaternion.slerpSpec T qa qb t)) ∧
      (¬(nearly_equal (Quaternion.dot qa qa) 1 0.0001 = true ∧
            nearly_equal (Quaternion.dot qb qb) 1 0.0001 = true) →
        Quaternion.slerpChecked T qa qb t = none) := by
  intro T qa qb t
  refine ⟨rfl, ?_, ?_⟩
  · intro h
    have hb : (nearly_equal (Quaternion.dot qa qa) 1 0.0001 &&
        nearly_equal (Quaternion.dot qb qb) 1 0.0001) = true := by
      rw [Bool.and_eq_true]
      exact h
    rw [Quaternion.slerpChecked, if_pos hb]
    rfl
  · intro h
    have hb : ¬((nearly_equal (Quaternion.dot qa qa) 1 0.0001 &&
        nearly_equal (Quaternion.dot qb qb) 1 0.0001) = true) := by
      rw [Bool.and_eq_true]
      exact h
    rw [Quaternion.slerpChecked, if_neg hb]

/-- Witness for C5 at a concrete input: the identity quaternion is unit
length, so the checked slerp succeeds there and agrees with the
specification's formula (transcendentals interpreted as the identity
function). -/
theorem slerp_matches_spec_witness :
    Quaternion.slerpChecked ⟨id, id, id, id⟩ (Quaternion.new 0 0 0 1)
        (Quaternion.new 0 0 0 1) 0 =
      some (Quaternion.slerpSpec ⟨id, id, id, id⟩ (Quaternion.new 0 0 0 1)
        (Quaternion.new 0 0 0 1) 0) :=
  (slerp_matches_spec ⟨id, id, id, id⟩ (Quaternion.new 0 0 0 1)
      (Quaternion.new 0 0 0 1) 0).2.1
    ⟨by norm_num [nearly_equal, Quaternion.dot, Vector.dot, Quaternion.new, Vector.new,
        Vector.mul, Vector.hsum],
     by norm_num [nearly_equal, Quaternion.dot, Vector.dot, Quaternion.new, Vector.new,
        Vector.mul, Vector.hsum]⟩

/-- C7: every Transform reachable through the public constructors
(identity, translate, scale with nonzero axes, rotate from a unit
quaternion, mul, inverse) satisfies `matrix * inverse == identity()`;
`mul(A, B)` stores `A.matrix * B.matrix` and `B.inverse * A.inverse`
(reversed order); and `inverse()` merely swaps the two stored halves. -/
theorem transform_invariant :
    (∀ t : Transform, Transform.Reachable t →
        Matrix.mul t.matrix t.inverse = Matrix.identity) ∧
    (∀ a b : Transform,
        (Transform.mul a b).matrix = Matrix.mul a.matrix b.matrix ∧
        (Transform.mul a b).inverse = Matrix.mul b.inverse a.inverse) ∧
    (∀ t : Transform, (Transform.invert t).matrix = t.inverse ∧
        (Transform.invert t).inverse = t.matrix) :=
  ⟨fun _ h => (Transform.reachable_inverse_pair h).1,
   fun _ _ => ⟨rfl, rfl⟩, fun _ => ⟨rfl, rfl⟩⟩

/-- Witness for C7 at a concrete reachable transform: a translation
composed with an all-nonzero scale satisfies the invariant. -/
theorem transform_invariant_witness :
    Matrix.mul
        (Transform.mul (Transform.translate (Direction.new 5 5 5))
          (Transform.scale (Direction.new 2 3 4))).matrix
        (Transform.mul (Transform.translate (Direction.new 5 5 5))
          (Transform.scale (Direction.new 2 3 4))).inverse = Matrix.identity :=
  transform_invariant.1 _
    (Transform.Reachable.mul (Transform.Reachable.translate 5 5 5)
      (Transform.Reachable.scale 2 3 4 (by norm_num) (by norm_num) (by norm_num)))

end Spaceform
